import Mathlib

/-!
Shallow embedding of `logscanner` (`src/main.rs`).

Lines are modelled as byte lists (`List Nat`); the regex engine, the console
styling library and the hdrhistogram digest are external crates, so they enter
the model as oracle parameters:
  * the capture oracle `caps : List Nat → Option (Option (Nat × Nat))`
    returns, per line, the result of `re.captures(&line)` composed with
    `captures.get(1)`: `none` = no match at all, `some none` = a match whose
    first capturing group did not participate, `some (some (s, e))` = the byte
    range of the first capturing group;
  * `applyStyle : StyleColor → Bool → List Nat → List Nat` is the console
    collaborator (color, bold flag, span bytes → rendered bytes);
  * `vaq : List Nat → Nat → Nat` is `Histogram::value_at_quantile`, given the
    multiset of absorbed values and the percentile (99, 90 or 50).
Machine integers (`u64`) are `Nat` with the bound `2 ^ 64` made explicit where
overflow matters (`parse_u64`).
-/

/-- `Data` from `main.rs`: the tagged result of matching one line.
`range` is the half-open byte range `[start, end)` of the first capturing
group; `parsed` is the `u64` value parsed from that span. -/
inductive Data where
  | Matching (line : List Nat) (range : Nat × Nat) (parsed : Nat)
  | NotMatching (line : List Nat)
deriving DecidableEq, Repr

/-- One past the largest `u64` value. -/
def u64_limit : Nat := 2 ^ 64

/-- Digit loop of Rust's `str::parse::<u64>`: consume ASCII digits,
failing on a non-digit byte or on overflow past `u64::MAX`. -/
def parse_u64_digits : List Nat → Nat → Option Nat
  | [], acc => some acc
  | b :: bs, acc =>
      if 48 ≤ b ∧ b ≤ 57 then
        let acc2 := acc * 10 + (b - 48)
        if acc2 < u64_limit then parse_u64_digits bs acc2 else none
      else none

/-- Rust's `str::parse::<u64>` on a byte slice: an optional leading `+`
followed by at least one ASCII digit, value below `2 ^ 64`; anything else
(empty input, sign only, non-digit byte, overflow) fails. -/
def parse_u64 : List Nat → Option Nat
  | [] => none
  | b :: bs =>
      if b = 43 then
        match bs with
        | [] => none
        | _ => parse_u64_digits bs 0
      else parse_u64_digits (b :: bs) 0

/-- Byte slice `line[s..e]` (Rust range indexing on the line). -/
def byte_slice (line : List Nat) (s e : Nat) : List Nat :=
  (line.drop s).take (e - s)

/-- `match_line` from `main.rs`. `caps` is the capture oracle for this line
(see the module docstring). If the first capturing group participated and its
span parses as a `u64`, the line is `Matching`; otherwise `NotMatching`. -/
def match_line (caps : Option (Option (Nat × Nat))) (line : List Nat) : Data :=
  match caps with
  | some (some m) =>
      match parse_u64 (byte_slice line m.1 m.2) with
      | some f => Data.Matching line m f
      | none => Data.NotMatching line
  | _ => Data.NotMatching line

/-- The `parsed` payload of a `Data`, when present: the two `match` arms
at the top of `PartialOrd for Data` in `main.rs`. -/
def parsedOf : Data → Option Nat
  | Data.Matching _ _ p => some p
  | Data.NotMatching _ => none

/-- `PartialOrd::partial_cmp for Data` from `main.rs`: compare the parsed
values when both sides are `Matching`, otherwise `None`. -/
def partial_cmp (a b : Data) : Option Ordering :=
  match parsedOf a, parsedOf b with
  | some x, some y => some (compare x y)
  | _, _ => none

/-- `a.partial_cmp(b).unwrap()` as used by the sort comparator in
`filter_and_sort`; the panic on `None` is modelled by a default value
(that case is proved unreachable on the lists actually sorted). -/
def cmp_unwrap (a b : Data) : Ordering :=
  (partial_cmp a b).getD Ordering.eq

/-- `matches!(d, Data::Matching { .. })` from `filter_and_sort`. -/
def isMatchingB : Data → Bool
  | Data.Matching _ _ _ => true
  | Data.NotMatching _ => false

/-- The `Sorting` arg enum from `main.rs`. -/
inductive Sorting where
  | Original
  | Asc
  | Desc
deriving DecidableEq, Repr

/-- The comparator handed to `par_sort_by` turned into a boolean
"less-or-equal" for the stable merge sort: `a` may precede `b` exactly when
the comparator does not say `Greater`. -/
def sortLe (a b : Data) : Bool :=
  decide (cmp_unwrap a b ≠ Ordering.gt)

/-- `filter_and_sort` from `main.rs`. `par_sort_by` is rayon's stable sort,
modelled by the stable `List.mergeSort`. -/
def filter_and_sort (data : List Data) (matching : Bool) (sorting : Sorting) :
    List Data :=
  match matching, sorting with
  | false, Sorting.Original => data
  | true, Sorting.Original => data.filter isMatchingB
  | _, Sorting.Asc | _, Sorting.Desc =>
      let d := (data.filter isMatchingB).mergeSort sortLe
      if sorting = Sorting.Desc then d.reverse else d

/-- The `Percentile` enum from `main.rs` (the four rank buckets). -/
inductive Percentile where
  | P99
  | P90
  | P50
  | Other
deriving DecidableEq, Repr

/-- The `to_percentile` closure from `main`, with the three captured
thresholds made explicit arguments. -/
def to_percentile (p99 p90 p50 val : Nat) : Percentile :=
  if p99 ≤ val then Percentile.P99
  else if p90 ≤ val then Percentile.P90
  else if p50 ≤ val then Percentile.P50
  else Percentile.Other

/-- The colors used by `From<Percentile> for Style` and by the highlight
branch of the render loop. -/
inductive StyleColor where
  | red
  | yellow
  | green
  | blue
deriving DecidableEq, Repr

/-- `From<Percentile> for Style` from `main.rs`. -/
def percentile_style : Percentile → StyleColor
  | Percentile.P99 => StyleColor.red
  | Percentile.P90 => StyleColor.yellow
  | Percentile.P50 => StyleColor.green
  | Percentile.Other => StyleColor.blue

/-- The per-line body of the output loop in `main`: a `NotMatching` line is
written verbatim (plus the newline byte 10 appended by `writeln!`); a
`Matching` line is split at its span, the span is styled (fixed yellow when
`--highlight`, else the bucket color for its value) with the bold modifier
composed on top, and reassembled. `applyStyle` is the console collaborator. -/
def render_line (applyStyle : StyleColor → Bool → List Nat → List Nat)
    (p99 p90 p50 : Nat) (highlight bold : Bool) : Data → List Nat
  | Data.NotMatching line => line ++ [10]
  | Data.Matching line range parsed =>
      let before := byte_slice line 0 range.1
      let during := byte_slice line range.1 range.2
      let color :=
        if highlight then StyleColor.yellow
        else percentile_style (to_percentile p99 p90 p50 parsed)
      let after := line.drop range.2
      before ++ applyStyle color bold during ++ after ++ [10]

/-- Observable result of one pipeline run: the rendered output lines, and the
trace of quantile queries the driver issued, each recorded as
(number of observations the digest had absorbed at query time, percentile). -/
structure PipelineResult where
  output : List (List Nat)
  queries : List (Nat × Nat)
deriving DecidableEq, Repr

/-- The core of `main` from `main.rs`, after the lines have been read:
classify every line, absorb every `Matching` value into the digest,
unconditionally query the three quantiles, filter/sort, render. `vaq` is the
external histogram's `value_at_quantile`; the trace records that `main`
issues its three quantile queries whatever the digest holds. -/
def run_pipeline (vaq : List Nat → Nat → Nat)
    (applyStyle : StyleColor → Bool → List Nat → List Nat)
    (caps : List Nat → Option (Option (Nat × Nat)))
    (highlight bold matching : Bool) (sorting : Sorting)
    (lines : List (List Nat)) : PipelineResult :=
  let data := lines.map (fun l => match_line (caps l) l)
  let absorbed := data.filterMap parsedOf
  let p99 := vaq absorbed 99
  let p90 := vaq absorbed 90
  let p50 := vaq absorbed 50
  { output :=
      (filter_and_sort data matching sorting).map
        (render_line applyStyle p99 p90 p50 highlight bold)
    queries := [(absorbed.length, 99), (absorbed.length, 90), (absorbed.length, 50)] }

/-! ### Helper definitions and lemmas -/

/-- The sample entries of the Rust unit tests: `Matching` lines `"1"`, `"5"`,
`"10"` and `NotMatching` lines `"hello"`, `"world"`. -/
def data1 : Data := Data.Matching [49] (0, 1) 1

def data5 : Data := Data.Matching [53] (0, 1) 5

def data10 : Data := Data.Matching [49, 48] (0, 2) 10

def hello : Data := Data.NotMatching [104, 101, 108, 108, 111]

def world : Data := Data.NotMatching [119, 111, 114, 108, 100]

def sample_data : List Data := [data5, hello, data10, world, data1]

/-- Value-based total comparator used to reason about the sort: compares the
parsed values, defaulting to `0` for `NotMatching` (which never survives the
filter preceding the sort). -/
def valLe (a b : Data) : Bool :=
  decide ((parsedOf a).getD 0 ≤ (parsedOf b).getD 0)

theorem matching_shape {d : Data} (h : isMatchingB d = true) :
    ∃ l r p, d = Data.Matching l r p := by
  cases d with
  | Matching l r p => exact ⟨l, r, p, rfl⟩
  | NotMatching l => simp [isMatchingB] at h

theorem sortLe_eq_valLe_of_matching {a b : Data}
    (ha : isMatchingB a = true) (hb : isMatchingB b = true) :
    sortLe a b = valLe a b := by
  obtain ⟨la, ra, pa, rfl⟩ := matching_shape ha
  obtain ⟨lb, rb, pb, rfl⟩ := matching_shape hb
  have hgt : (¬ compare pa pb = Ordering.gt) ↔ pa ≤ pb := by
    rw [Nat.compare_eq_gt]
    exact Nat.not_lt
  simp [sortLe, valLe, cmp_unwrap, partial_cmp, parsedOf, hgt]

theorem valLe_trans : ∀ a b c : Data, valLe a b → valLe b c → valLe a c := by
  intro a b c
  simp only [valLe, decide_eq_true_eq]
  omega

theorem valLe_total : ∀ a b : Data, valLe a b || valLe b a := by
  intro a b
  simp only [valLe, Bool.or_eq_true, decide_eq_true_eq]
  omega

theorem mergeSort_sortLe_eq_valLe (l : List Data)
    (h : ∀ d ∈ l, isMatchingB d = true) :
    l.mergeSort sortLe = l.mergeSort valLe := by
  have hl : ∀ a ∈ l, ∀ b ∈ l, sortLe a b = valLe (id a) (id b) := by
    intro a ha b hb
    simpa using sortLe_eq_valLe_of_matching (h a ha) (h b hb)
  simpa using List.map_mergeSort (f := id) hl

theorem filter_and_sort_asc (data : List Data) (m : Bool) :
    filter_and_sort data m Sorting.Asc =
      (data.filter isMatchingB).mergeSort sortLe := by
  cases m <;> rfl

theorem filter_and_sort_desc (data : List Data) (m : Bool) :
    filter_and_sort data m Sorting.Desc =
      ((data.filter isMatchingB).mergeSort sortLe).reverse := by
  cases m <;> rfl

theorem mem_of_mem_filter_and_sort {data : List Data} {m : Bool} {s : Sorting}
    {d : Data} (h : d ∈ filter_and_sort data m s) : d ∈ data := by
  cases s with
  | Original =>
      cases m with
      | false => exact h
      | true => exact (List.mem_filter.mp h).1
  | Asc =>
      rw [filter_and_sort_asc] at h
      exact (List.mem_filter.mp (List.mem_mergeSort.mp h)).1
  | Desc =>
      rw [filter_and_sort_desc] at h
      exact (List.mem_filter.mp (List.mem_mergeSort.mp (List.mem_reverse.mp h))).1

/-! ### Claims -/

/-- Claim C1: for every `u64` value and thresholds `p50 ≤ p90 ≤ p99` (as
produced by quantile queries on one digest), `to_percentile` is total and the
four buckets partition `u64` without gaps or overlaps, ties going to the more
extreme bucket: `P99` iff `value ≥ p99`, `P90` iff `p90 ≤ value < p99`,
`P50` iff `p50 ≤ value < p90`, `Other` iff `value < p50`. -/
theorem to_percentile_buckets (p99 p90 p50 val : Nat)
    (hval : val < u64_limit) (h1 : p50 ≤ p90) (h2 : p90 ≤ p99) :
    (to_percentile p99 p90 p50 val = Percentile.P99 ↔ p99 ≤ val) ∧
    (to_percentile p99 p90 p50 val = Percentile.P90 ↔ p90 ≤ val ∧ val < p99) ∧
    (to_percentile p99 p90 p50 val = Percentile.P50 ↔ p50 ≤ val ∧ val < p90) ∧
    (to_percentile p99 p90 p50 val = Percentile.Other ↔ val < p50) := by
  unfold to_percentile
  split_ifs <;> simp_all <;> omega

/-- Witness for C1 at thresholds 10/20/30 and value 25. -/
theorem to_percentile_buckets_witness :
    (to_percentile 30 20 10 25 = Percentile.P99 ↔ 30 ≤ 25) ∧
    (to_percentile 30 20 10 25 = Percentile.P90 ↔ 20 ≤ 25 ∧ 25 < 30) ∧
    (to_percentile 30 20 10 25 = Percentile.P50 ↔ 10 ≤ 25 ∧ 25 < 20) ∧
    (to_percentile 30 20 10 25 = Percentile.Other ↔ 25 < 10) :=
  to_percentile_buckets 30 20 10 25 (by decide) (by decide) (by decide)

/-- Claim C2: when the capture oracle reports that the first capturing group
matched the byte range `[s, e)` and that span parses as a `u64`, `match_line`
returns `Matching` with the original line, exactly that span, and exactly the
parsed value. -/
theorem match_line_matched (s e : Nat) (line : List Nat) (v : Nat)
    (h : parse_u64 (byte_slice line s e) = some v) :
    match_line (some (some (s, e))) line = Data.Matching line (s, e) v := by
  unfold match_line
  simp [h]

/-- Witness for C2 on the line `"ab123"` with capture span `[2, 5)`. -/
theorem match_line_matched_witness :
    parse_u64 (byte_slice [97, 98, 49, 50, 51] 2 5) = some 123 ∧
    match_line (some (some (2, 5))) [97, 98, 49, 50, 51] =
      Data.Matching [97, 98, 49, 50, 51] (2, 5) 123 :=
  ⟨by decide, match_line_matched 2 5 [97, 98, 49, 50, 51] 123 (by decide)⟩

/-- Claim C6: when the pattern does not match, or the first capturing group
did not participate, or the captured span does not parse as a `u64`
(non-digit content or overflow), `match_line` returns `NotMatching` carrying
the input line unchanged; an unparseable capture never propagates an error. -/
theorem match_line_unmatched (caps : Option (Option (Nat × Nat)))
    (line : List Nat)
    (h : caps = none ∨ caps = some none ∨
      ∃ s e, caps = some (some (s, e)) ∧
        parse_u64 (byte_slice line s e) = none) :
    match_line caps line = Data.NotMatching line := by
  rcases h with h | h | ⟨s, e, h, hp⟩ <;> subst h
  · rfl
  · rfl
  · unfold match_line
    simp [hp]

/-- Witness for C6 on the overflowing capture `"18446744073709551616"`
(`2 ^ 64`, one past `u64::MAX`). -/
theorem match_line_unmatched_witness :
    parse_u64 (byte_slice
      [49, 56, 52, 52, 54, 55, 52, 52, 48, 55, 51, 55, 48, 57, 53, 53, 49, 54, 49, 54]
      0 20) = none ∧
    match_line (some (some (0, 20)))
      [49, 56, 52, 52, 54, 55, 52, 52, 48, 55, 51, 55, 48, 57, 53, 53, 49, 54, 49, 54] =
      Data.NotMatching
        [49, 56, 52, 52, 54, 55, 52, 52, 48, 55, 51, 55, 48, 57, 53, 53, 49, 54, 49, 54] :=
  ⟨by decide,
    match_line_unmatched _ _ (Or.inr (Or.inr ⟨0, 20, rfl, by decide⟩))⟩

/-- Claim C7: with `matching_only = true` and order `Original`,
`filter_and_sort` returns exactly the `Matching` entries in their original
relative order (the `List.filter` of the input), and on the unit tests'
sample data `[M(5), U("hello"), M(10), U("world"), M(1)]` it yields
`[M(5), M(10), M(1)]`. -/
theorem filter_and_sort_matching_original :
    (∀ data : List Data,
      filter_and_sort data true Sorting.Original = data.filter isMatchingB) ∧
    filter_and_sort sample_data true Sorting.Original = [data5, data10, data1] :=
  ⟨fun _ => rfl, by decide⟩

/-- Claim C8: with `matching_only = false` and order `Original`,
`filter_and_sort` is the identity transform. -/
theorem filter_and_sort_default_identity (data : List Data) :
    filter_and_sort data false Sorting.Original = data := rfl

/-- Claim C9: rendering a `NotMatching` line with highlighting off and bold
off emits the original line bytes unchanged, apart from the appended newline,
for any styling collaborator and any thresholds. -/
theorem render_unmatched_verbatim
    (applyStyle : StyleColor → Bool → List Nat → List Nat)
    (p99 p90 p50 : Nat) (line : List Nat) :
    render_line applyStyle p99 p90 p50 false false (Data.NotMatching line) =
      line ++ [10] := rfl

/-- Claim C10: on the `Matching`-only lists handed to the sort by
`filter_and_sort`, `partial_cmp` always returns `Some`, so the comparator's
`unwrap` never panics. -/
theorem sort_comparator_never_panics (data : List Data) (a b : Data)
    (ha : a ∈ data.filter isMatchingB) (hb : b ∈ data.filter isMatchingB) :
    (partial_cmp a b).isSome = true := by
  obtain ⟨la, ra, pa, rfl⟩ := matching_shape (List.mem_filter.mp ha).2
  obtain ⟨lb, rb, pb, rfl⟩ := matching_shape (List.mem_filter.mp hb).2
  rfl

/-- Witness for C10 on the sample data's filtered list. -/
theorem sort_comparator_never_panics_witness :
    data5 ∈ sample_data.filter isMatchingB ∧
    data1 ∈ sample_data.filter isMatchingB ∧
    (partial_cmp data5 data1).isSome = true :=
  ⟨by decide, by decide,
    sort_comparator_never_panics sample_data data5 data1 (by decide) (by decide)⟩

/-- Claim C5: whatever the `matching` flag, sorting ascending or descending
drops every `NotMatching` entry and the output is exactly (a permutation of)
the `Matching` entries of the input. -/
theorem filter_and_sort_sorting_drops_unmatched (data : List Data) (m : Bool) :
    (filter_and_sort data m Sorting.Asc).Perm (data.filter isMatchingB) ∧
    (filter_and_sort data m Sorting.Desc).Perm (data.filter isMatchingB) ∧
    (∀ d ∈ filter_and_sort data m Sorting.Asc, isMatchingB d = true) ∧
    (∀ d ∈ filter_and_sort data m Sorting.Desc, isMatchingB d = true) := by
  simp only [filter_and_sort_asc, filter_and_sort_desc]
  refine ⟨List.mergeSort_perm _ _,
    (List.reverse_perm _).trans (List.mergeSort_perm _ _), ?_, ?_⟩
  · intro d hd
    exact (List.mem_filter.mp (List.mem_mergeSort.mp hd)).2
  · intro d hd
    exact (List.mem_filter.mp (List.mem_mergeSort.mp (List.mem_reverse.mp hd))).2

/-- Claim C4: ascending order stably sorts the surviving `Matching` entries
by parsed value (adjacent entries are matched with ascending values, the
output is a permutation of the filtered input, and the entries of any fixed
value keep their pre-sort relative order), and descending order is exactly
the reverse of the ascending result. -/
theorem filter_and_sort_stable_sorted (data : List Data) (m : Bool) :
    (filter_and_sort data m Sorting.Asc).Pairwise
      (fun a b => ∃ x y, parsedOf a = some x ∧ parsedOf b = some y ∧ x ≤ y) ∧
    (filter_and_sort data m Sorting.Asc).Perm (data.filter isMatchingB) ∧
    (∀ v : Nat,
      (filter_and_sort data m Sorting.Asc).filter (fun d => parsedOf d == some v) =
        (data.filter isMatchingB).filter (fun d => parsedOf d == some v)) ∧
    filter_and_sort data m Sorting.Desc =
      (filter_and_sort data m Sorting.Asc).reverse := by
  have hfil : ∀ d ∈ data.filter isMatchingB, isMatchingB d = true :=
    fun d hd => (List.mem_filter.mp hd).2
  have heq : (data.filter isMatchingB).mergeSort sortLe
      = (data.filter isMatchingB).mergeSort valLe :=
    mergeSort_sortLe_eq_valLe _ hfil
  simp only [filter_and_sort_asc, filter_and_sort_desc, heq]
  refine ⟨?_, List.mergeSort_perm _ _, ?_, trivial⟩
  · have hs := List.sorted_mergeSort valLe_trans valLe_total
      (data.filter isMatchingB)
    refine List.Pairwise.imp_of_mem ?_ hs
    intro a b hamem hbmem hab
    obtain ⟨la, ra, pa, rfl⟩ := matching_shape (hfil a (List.mem_mergeSort.mp hamem))
    obtain ⟨lb, rb, pb, rfl⟩ := matching_shape (hfil b (List.mem_mergeSort.mp hbmem))
    refine ⟨pa, pb, rfl, rfl, ?_⟩
    simpa [valLe, parsedOf] using hab
  · intro v
    have hpair : ((data.filter isMatchingB).filter
        (fun d => parsedOf d == some v)).Pairwise (fun a b => valLe a b = true) := by
      apply List.pairwise_of_forall_mem_list
      intro a ha b hb
      have hpa := (List.mem_filter.mp ha).2
      have hpb := (List.mem_filter.mp hb).2
      simp only [beq_iff_eq] at hpa hpb
      simp [valLe, hpa, hpb]
    have hsub : List.Sublist
        ((data.filter isMatchingB).filter (fun d => parsedOf d == some v))
        ((data.filter isMatchingB).mergeSort valLe) :=
      List.sublist_mergeSort valLe_trans valLe_total hpair (List.filter_sublist _)
    have hsub2 : List.Sublist
        ((data.filter isMatchingB).filter (fun d => parsedOf d == some v))
        (((data.filter isMatchingB).mergeSort valLe).filter
          (fun d => parsedOf d == some v)) := by
      have hstep := hsub.filter (fun d => parsedOf d == some v)
      rwa [List.filter_eq_self.mpr (fun a ha => (List.mem_filter.mp ha).2)] at hstep
    have hlen : (((data.filter isMatchingB).mergeSort valLe).filter
          (fun d => parsedOf d == some v)).length =
        ((data.filter isMatchingB).filter (fun d => parsedOf d == some v)).length :=
      ((List.mergeSort_perm (data.filter isMatchingB) valLe).filter
        (fun d => parsedOf d == some v)).length_eq
    exact (hsub2.eq_of_length hlen.symm).symm

/-- Claim C3, counterexample: on the single unmatched line `"hi"`, zero
lines match (every classified entry is `NotMatching`), yet the driver still
issues its three quantile queries on the digest holding 0 observations —
`main` computes `p99`/`p90`/`p50` unconditionally. -/
theorem empty_digest_query_counterexample :
    (run_pipeline (fun _ _ => 0) (fun _ _ s => s) (fun _ => none)
        false false false Sorting.Original [[104, 105]]).queries =
      [(0, 99), (0, 90), (0, 50)] ∧
    [[104, 105]].map
        (fun l => match_line ((fun _ => (none : Option (Option (Nat × Nat)))) l) l) =
      [Data.NotMatching [104, 105]] :=
  ⟨rfl, rfl⟩

/-- Claim C3, amended: the driver issues its three quantile queries
unconditionally — on a run where no line matches they are issued against the
empty digest (0 absorbed observations) and the external histogram answers
with a placeholder rather than an error — but the thresholds are then never
consumed: with zero matched lines every emitted line renders via the
`NotMatching` path, so the output is independent of the quantile answers. -/
theorem run_pipeline_zero_matched (vaq vaq2 : List Nat → Nat → Nat)
    (applyStyle : StyleColor → Bool → List Nat → List Nat)
    (caps : List Nat → Option (Option (Nat × Nat)))
    (highlight bold matching : Bool) (sorting : Sorting)
    (lines : List (List Nat))
    (h : ∀ l ∈ lines, match_line (caps l) l = Data.NotMatching l) :
    (run_pipeline vaq applyStyle caps highlight bold matching sorting lines).queries
      = [(0, 99), (0, 90), (0, 50)] ∧
    (run_pipeline vaq applyStyle caps highlight bold matching sorting lines).output
      = (run_pipeline vaq2 applyStyle caps highlight bold matching sorting lines).output := by
  have hdata : ∀ d ∈ lines.map (fun l => match_line (caps l) l),
      ∃ l, d = Data.NotMatching l := by
    intro d hd
    obtain ⟨l, hl, rfl⟩ := List.mem_map.mp hd
    exact ⟨l, by rw [h l hl]⟩
  have habs : (lines.map (fun l => match_line (caps l) l)).filterMap parsedOf = [] := by
    rw [List.filterMap_eq_nil_iff]
    intro d hd
    obtain ⟨l, rfl⟩ := hdata d hd
    rfl
  have ho : ∀ w : List Nat → Nat → Nat,
      (run_pipeline w applyStyle caps highlight bold matching sorting lines).output =
        (filter_and_sort (lines.map (fun l => match_line (caps l) l))
            matching sorting).map
          (render_line applyStyle
            (w ((lines.map (fun l => match_line (caps l) l)).filterMap parsedOf) 99)
            (w ((lines.map (fun l => match_line (caps l) l)).filterMap parsedOf) 90)
            (w ((lines.map (fun l => match_line (caps l) l)).filterMap parsedOf) 50)
            highlight bold) :=
    fun _ => rfl
  constructor
  · have hq :
        (run_pipeline vaq applyStyle caps highlight bold matching sorting lines).queries =
        [(((lines.map (fun l => match_line (caps l) l)).filterMap parsedOf).length, 99),
         (((lines.map (fun l => match_line (caps l) l)).filterMap parsedOf).length, 90),
         (((lines.map (fun l => match_line (caps l) l)).filterMap parsedOf).length, 50)] := rfl
    rw [hq, habs]
    rfl
  · rw [ho vaq, ho vaq2]
    apply List.map_congr_left
    intro d hd
    obtain ⟨l, rfl⟩ := hdata d (mem_of_mem_filter_and_sort hd)
    rfl

/-- Witness for the amended C3 on one unmatched line, with two quantile
collaborators that disagree everywhere. -/
theorem run_pipeline_zero_matched_witness :
    (run_pipeline (fun _ _ => 0) (fun _ _ s => s) (fun _ => none)
        false false false Sorting.Original [[104]]).queries =
      [(0, 99), (0, 90), (0, 50)] ∧
    (run_pipeline (fun _ _ => 0) (fun _ _ s => s) (fun _ => none)
        false false false Sorting.Original [[104]]).output =
      (run_pipeline (fun _ _ => 7) (fun _ _ s => s) (fun _ => none)
        false false false Sorting.Original [[104]]).output :=
  run_pipeline_zero_matched (fun _ _ => 0) (fun _ _ => 7) (fun _ _ s => s)
    (fun _ => none) false false false Sorting.Original [[104]] (fun _ _ => rfl)
